import Mathlib

/-!
Shallow embedding of the advanced RAG retriever pipeline
(`backend/agent.py` and `backend/db.py`) and proofs about it.

Python dictionaries holding chunk / document records are modelled as Lean
structures whose fields are the keys the code reads (the retrieval layer
installs defaults for all of them with `setdefault`); values of unconstrained
JSON shape are modelled by the inductive `PyVal`.  Python `float` relevance
scores are modelled by `Rat` (the code only orders and formats them).
Exceptions are modelled by `Except PyError`.
-/

namespace RAG

/-- Model of a raised Python exception, carrying a rendering of its text. -/
inductive PyError where
  | typeError (msg : String)
  | attributeError (msg : String)
  | exception (msg : String)
deriving DecidableEq, Repr

/-- Text of an exception, as interpolated by `str(e)` in the source. -/
def PyError.text : PyError → String
  | .typeError m => m
  | .attributeError m => m
  | .exception m => m

/-- Model of an arbitrary Python value produced by `json.loads`, and of the
unconstrained `metadata` field of stored records. -/
inductive PyVal where
  | none
  | bool (b : Bool)
  | num (q : Rat)
  | str (s : String)
  | list (xs : List PyVal)
  | dict (kvs : List (String × PyVal))

/-- Model of Python `len(v)`: defined on strings, lists and dicts, a
`TypeError` on the remaining shapes, as in CPython. -/
def pyLen : PyVal → Except PyError Nat
  | .str s => .ok s.length
  | .list xs => .ok xs.length
  | .dict kvs => .ok kvs.length
  | _ => .error (.typeError "object has no len")

/-- Model of Python `str(v)` as used by f-string interpolation.  Strings
render as themselves; container renderings are simplified (the claims never
depend on them). -/
def pyToStr : PyVal → String
  | .none => "None"
  | .bool b => if b then "True" else "False"
  | .num q => toString q
  | .str s => s
  | .list _ => "[...]"
  | .dict _ => "..."

/-- Model of `v.get(key, default)` on a value expected to be a dict: an
`AttributeError` when `v` is not a dict, as in CPython. -/
def pyDictGet (v : PyVal) (key : String) (dflt : PyVal) : Except PyError PyVal :=
  match v with
  | .dict kvs =>
    match kvs.lookup key with
    | some w => .ok w
    | Option.none => .ok dflt
  | _ => .error (.attributeError "object has no attribute get")

/-! ### MD5 (model of `hashlib.md5(content.encode()).hexdigest()`)

The digest is modelled as the natural number encoding the 16 digest bytes in
output order (little-endian fold); the hex rendering performed by
`hexdigest` is injective, so equality of digests models equality of the
hex strings. -/

/-- UTF-8 encoding of one character, as a list of byte values. -/
def charUtf8 (c : Char) : List Nat :=
  let n := c.toNat
  if n < 128 then [n]
  else if n < 2048 then [192 + n / 64, 128 + n % 64]
  else if n < 65536 then [224 + n / 4096, 128 + (n / 64) % 64, 128 + n % 64]
  else [240 + n / 262144, 128 + (n / 4096) % 64, 128 + (n / 64) % 64, 128 + n % 64]

/-- UTF-8 byte sequence of a string, modelling `s.encode("utf-8")`. -/
def utf8Bytes (s : String) : List Nat :=
  s.data.flatMap charUtf8

/-- Addition modulo 2^32. -/
def add32 (a b : Nat) : Nat := (a + b) % 4294967296

/-- Bitwise complement on 32 bits. -/
def not32 (x : Nat) : Nat := 4294967295 - x % 4294967296

/-- Left rotation on 32 bits. -/
def rotl32 (x s : Nat) : Nat :=
  (((x % 4294967296) <<< s) ||| ((x % 4294967296) >>> (32 - s))) % 4294967296

/-- The 64 MD5 sine-derived constants. -/
def md5K : List Nat :=
  [0xd76aa478, 0xe8c7b756, 0x242070db, 0xc1bdceee,
   0xf57c0faf, 0x4787c62a, 0xa8304613, 0xfd469501,
   0x698098d8, 0x8b44f7af, 0xffff5bb1, 0x895cd7be,
   0x6b901122, 0xfd987193, 0xa679438e, 0x49b40821,
   0xf61e2562, 0xc040b340, 0x265e5a51, 0xe9b6c7aa,
   0xd62f105d, 0x02441453, 0xd8a1e681, 0xe7d3fbc8,
   0x21e1cde6, 0xc33707d6, 0xf4d50d87, 0x455a14ed,
   0xa9e3e905, 0xfcefa3f8, 0x676f02d9, 0x8d2a4c8a,
   0xfffa3942, 0x8771f681, 0x6d9d6122, 0xfde5380c,
   0xa4beea44, 0x4bdecfa9, 0xf6bb4b60, 0xbebfbc70,
   0x289b7ec6, 0xeaa127fa, 0xd4ef3085, 0x04881d05,
   0xd9d4d039, 0xe6db99e5, 0x1fa27cf8, 0xc4ac5665,
   0xf4292244, 0x432aff97, 0xab9423a7, 0xfc93a039,
   0x655b59c3, 0x8f0ccc92, 0xffeff47d, 0x85845dd1,
   0x6fa87e4f, 0xfe2ce6e0, 0xa3014314, 0x4e0811a1,
   0xf7537e82, 0xbd3af235, 0x2ad7d2bb, 0xeb86d391]

/-- The 64 MD5 per-round left-rotation amounts. -/
def md5S : List Nat :=
  [7, 12, 17, 22, 7, 12, 17, 22, 7, 12, 17, 22, 7, 12, 17, 22,
   5, 9, 14, 20, 5, 9, 14, 20, 5, 9, 14, 20, 5, 9, 14, 20,
   4, 11, 16, 23, 4, 11, 16, 23, 4, 11, 16, 23, 4, 11, 16, 23,
   6, 10, 15, 21, 6, 10, 15, 21, 6, 10, 15, 21, 6, 10, 15, 21]

/-- Round function of MD5, by round index. -/
def md5F (i b c d : Nat) : Nat :=
  if i < 16 then (b &&& c) ||| (not32 b &&& d)
  else if i < 32 then (d &&& b) ||| (not32 d &&& c)
  else if i < 48 then b ^^^ c ^^^ d
  else c ^^^ (b ||| not32 d)

/-- Message-word index of MD5, by round index. -/
def md5G (i : Nat) : Nat :=
  if i < 16 then i
  else if i < 32 then (5 * i + 1) % 16
  else if i < 48 then (3 * i + 5) % 16
  else (7 * i) % 16

/-- Little-endian 32-bit word `j` of a 64-byte block. -/
def leWord (block : List Nat) (j : Nat) : Nat :=
  block.getD (4 * j) 0 + 256 * block.getD (4 * j + 1) 0 +
    65536 * block.getD (4 * j + 2) 0 + 16777216 * block.getD (4 * j + 3) 0

/-- One MD5 operation on the running state. -/
def md5Step (w : List Nat) (st : Nat × Nat × Nat × Nat) (i : Nat) :
    Nat × Nat × Nat × Nat :=
  let a := st.1
  let b := st.2.1
  let c := st.2.2.1
  let d := st.2.2.2
  let f := add32 (add32 (add32 (md5F i b c d) a) (md5K.getD i 0)) (w.getD (md5G i) 0)
  (d, add32 b (rotl32 f (md5S.getD i 0)), b, c)

/-- MD5 compression of one 64-byte block. -/
def md5Compress (st : Nat × Nat × Nat × Nat) (block : List Nat) :
    Nat × Nat × Nat × Nat :=
  let w := (List.range 16).map (leWord block)
  let r := (List.range 64).foldl (md5Step w) st
  (add32 st.1 r.1, add32 st.2.1 r.2.1, add32 st.2.2.1 r.2.2.1, add32 st.2.2.2 r.2.2.2)

/-- MD5 padding: a 0x80 byte, zeros to 56 mod 64, then the 64-bit
little-endian bit length. -/
def md5Pad (bs : List Nat) : List Nat :=
  let L := bs.length
  let zeros := (119 - L % 64) % 64
  let bitLen := (8 * L) % 18446744073709551616
  bs ++ 128 :: List.replicate zeros 0 ++
    (List.range 8).map (fun i => (bitLen >>> (8 * i)) % 256)

/-- Splits a byte list into 64-byte blocks, with a structural fuel bound
(each step consumes at least one byte, so the length is enough fuel). -/
def chunks64Go : Nat → List Nat → List (List Nat)
  | 0, _ => []
  | _ + 1, [] => []
  | n + 1, b :: rest => ((b :: rest).take 64) :: chunks64Go n (rest.drop 63)

/-- Splits a byte list into 64-byte blocks. -/
def chunks64 (l : List Nat) : List (List Nat) := chunks64Go l.length l

/-- Little-endian byte fold into a natural number. -/
def bytesToNatLE : List Nat → Nat
  | [] => 0
  | b :: bs => b % 256 + 256 * bytesToNatLE bs

/-- MD5 digest of a byte sequence, as the little-endian value of the 16
digest bytes. -/
def md5Bytes (bs : List Nat) : Nat :=
  let st := (chunks64 (md5Pad bs)).foldl md5Compress
    (0x67452301, 0xefcdab89, 0x98badcfe, 0x10325476)
  let out := (List.range 4).flatMap
    (fun i => (List.range 4).map
      (fun j => ((match i with
        | 0 => st.1
        | 1 => st.2.1
        | 2 => st.2.2.1
        | _ => st.2.2.2) >>> (8 * j)) % 256))
  bytesToNatLE out

/-- Model of `hashlib.md5(content.encode("utf-8")).hexdigest()` (as the
digest value; hex rendering is injective). -/
def md5 (s : String) : Nat := md5Bytes (utf8Bytes s)

/-! ### Records of the pipeline -/

/-- Model of one chunk dictionary as returned by
`retrieve_relevant_chunks`, which installs defaults for every key the agent
reads (`setdefault` in `db.py`); the two tagging keys added by
`retrieve_for_subqueries` are `Option`-valued, absent as `none`. -/
structure Chunk where
  chunk_id : String
  document_id : String
  content : String
  enriched_content : String
  metadata : PyVal
  score : Rat
  source_subquery : Option String := Option.none
  subquery_index : Option Nat := Option.none

/-- Model of a raw document record returned by `db.documents.find`:
`content` as read through `doc.get("content", "")`, `score` as the optional
`score` key read through `doc.get("score", 0)`, and `metadata` of
unconstrained shape. -/
structure Document where
  document_id : String
  content : String
  metadata : PyVal
  score : Option Rat := Option.none

/-- Model of the `QueryResult` dataclass of `agent.py`: fields
`original_query`, `subqueries`, `context`, `final_answer`.  The
`subqueries` field holds whatever value `generate_subqueries` produced. -/
structure QueryResult where
  original_query : String
  subqueries : PyVal
  context : String
  final_answer : String

/-! ### generate_subqueries -/

/-- Padding loop of `generate_subqueries`: while the list has fewer than 3
entries, append `"<original_query> - variation <len+1>"`.  The loop is run
on a structural fuel of 3, which is enough since every pass adds one
entry. -/
def padLoop (original_query : String) : Nat → List PyVal → List PyVal
  | 0, xs => xs
  | n + 1, xs =>
    if xs.length < 3 then
      padLoop original_query n
        (xs ++ [PyVal.str (original_query ++ " - variation " ++ toString (xs.length + 1))])
    else xs

/-- The `while len(subqueries) < 3` padding of `generate_subqueries`. -/
def padSubqueries (original_query : String) (xs : List PyVal) : List PyVal :=
  padLoop original_query 3 xs

/-- Body of the `try` block of `generate_subqueries` after `json.loads`
succeeded with value `v`: take `len(v)` (which may raise), and if below 3
run the append loop (which raises `AttributeError` unless `v` is a list). -/
def generateSubqueriesBody (original_query : String) (v : PyVal) :
    Except PyError PyVal :=
  match pyLen v with
  | .error e => .error e
  | .ok n =>
    if n < 3 then
      match v with
      | .list xs => .ok (PyVal.list (padSubqueries original_query xs))
      | _ => .error (.attributeError "object has no attribute append")
    else .ok v

/-- Model of `AdvancedRAGRetriever.generate_subqueries`.  The composite of
`llm.invoke(prompt).content` and `json.loads` is the environment-supplied
`invoke_parse` argument: `Except.error` when the call or the parse raised,
`Except.ok v` when the completion parsed to the value `v`.  Any exception
escaping the `try` block yields the fallback `[original_query]`. -/
def generate_subqueries (original_query : String)
    (invoke_parse : Except PyError PyVal) : PyVal :=
  match invoke_parse with
  | .error _ => PyVal.list [PyVal.str original_query]
  | .ok v =>
    match generateSubqueriesBody original_query v with
    | .ok w => w
    | .error _ => PyVal.list [PyVal.str original_query]

/-! ### retrieve_for_subqueries -/

/-- The per-chunk tagging performed inside the retrieval loop:
`chunk["source_subquery"] = subquery; chunk["subquery_index"] = i`. -/
def tagChunk (subquery : String) (i : Nat) (c : Chunk) : Chunk :=
  { c with source_subquery := some subquery, subquery_index := some i }

/-- The retrieval loop with its accumulator `all_chunks` and the running
1-based index of `enumerate(subqueries, 1)`; a raise from
`retrieve_relevant_chunks` is caught and the subquery skipped. -/
def retrieveLoop (retrieve : String → Except PyError (List Chunk)) :
    Nat → List String → List Chunk → List Chunk
  | _, [], acc => acc
  | i, sq :: rest, acc =>
    match retrieve sq with
    | .ok cs => retrieveLoop retrieve (i + 1) rest (acc ++ cs.map (tagChunk sq i))
    | .error _ => retrieveLoop retrieve (i + 1) rest acc

/-- Model of `AdvancedRAGRetriever.retrieve_for_subqueries`, parametric in
the effectful `retrieve_relevant_chunks`. -/
def retrieve_for_subqueries (retrieve : String → Except PyError (List Chunk))
    (subqueries : List String) : List Chunk :=
  retrieveLoop retrieve 1 subqueries []

/-! ### deduplicate_chunks -/

/-- The deduplication loop of `deduplicate_chunks` with its two seen-sets:
a chunk is skipped when its non-empty `chunk_id` was seen, else its content
hash is computed and the chunk skipped when the hash was seen; survivors
register their hash, and their id when non-empty. -/
def dedupLoop : List Chunk → List String → List Nat → List Chunk
  | [], _, _ => []
  | c :: rest, seenIds, seenHashes =>
    if c.chunk_id ≠ "" ∧ c.chunk_id ∈ seenIds then
      dedupLoop rest seenIds seenHashes
    else
      let h := md5 c.content
      if h ∈ seenHashes then
        dedupLoop rest seenIds seenHashes
      else
        c :: dedupLoop rest
          (if c.chunk_id ≠ "" then c.chunk_id :: seenIds else seenIds)
          (h :: seenHashes)

/-- Stable descending insertion: `c` goes before the first element whose
score is not above `c`'s.  This realises the documented semantics of
CPython's stable `list.sort(key=score, reverse=True)`. -/
def insertByScore (c : Chunk) : List Chunk → List Chunk
  | [] => [c]
  | d :: ds => if d.score ≤ c.score then c :: d :: ds else d :: insertByScore c ds

/-- Stable sort by score, highest first. -/
def sortByScoreDesc : List Chunk → List Chunk
  | [] => []
  | c :: cs => insertByScore c (sortByScoreDesc cs)

/-- Model of `AdvancedRAGRetriever.deduplicate_chunks`: the dedup pass over
the input order, then the stable descending sort by `score`. -/
def deduplicate_chunks (chunks : List Chunk) : List Chunk :=
  sortByScoreDesc (dedupLoop chunks [] [])

/-! ### truncate_context -/

/-- Model of `AdvancedRAGRetriever.truncate_context` over the configured
`max_context_length`: the loop accumulates documents while the running
total of `len(content)` stays within the budget and `break`s at the first
document that does not fit. -/
def truncate_context (max_context_length : Nat) (docs : List Document) :
    List Document :=
  loop 0 docs
where
  /-- The accumulation loop carrying `total_length`. -/
  loop : Nat → List Document → List Document
  | _, [] => []
  | total, d :: rest =>
    if total + d.content.length ≤ max_context_length then
      d :: loop (total + d.content.length) rest
    else []

/-! ### build_context_string -/

/-- Three-digit zero-padding of the fractional part. -/
def pad3 (r : Nat) : String :=
  if r < 10 then "00" ++ toString r
  else if r < 100 then "0" ++ toString r
  else toString r

/-- Model of the fixed-point formatting `f"{score:.3f}"` on the rational
model of the score, rounding to the nearest thousandth (half-up, written
on the numerator and denominator directly; the claims never depend on the
rendered digits). -/
def fmt3 (q : Rat) : String :=
  let m : Int := (q.num * 2000 + (q.den : Int)) / (2 * (q.den : Int))
  let a := m.natAbs
  (if m < 0 then "-" else "") ++ toString (a / 1000) ++ "." ++ pad3 (a % 1000)

/-- One `context_part` of `build_context_string`: the f-string beginning
with a newline, with `chunk.get("score", 0)` and the two reads through
`chunk.get("metadata", {}).get(...)`, which raise `AttributeError` when the
stored `metadata` value is not a dict. -/
def contextPart (i : Nat) (d : Document) : Except PyError String :=
  match pyDictGet d.metadata "url" (PyVal.str "Unknown Source") with
  | .error e => .error e
  | .ok source =>
    match pyDictGet d.metadata "title" (PyVal.str "Unknown Title") with
    | .error e => .error e
    | .ok title => .ok
      ("\n<context_chunk id=\"" ++ toString i ++ "\" score=\"" ++
        fmt3 (d.score.getD 0) ++ "\" source_url=\"" ++ pyToStr source ++
        "\" title=\"" ++ pyToStr title ++ "\">\n" ++ d.content ++
        "\n</context_chunk>")

/-- Model of `"\n".join(parts)`. -/
def joinParts : List String → String
  | [] => ""
  | [p] => p
  | p :: q :: rest => p ++ "\n" ++ joinParts (q :: rest)

/-- The `context_parts` accumulation loop of `build_context_string` over
`enumerate(chunks, 1)`, carrying the running 1-based index; the first
raise from a metadata read escapes the loop. -/
def buildParts : Nat → List Document → Except PyError (List String)
  | _, [] => .ok []
  | i, d :: ds =>
    match contextPart i d with
    | .error e => .error e
    | .ok p =>
      match buildParts (i + 1) ds with
      | .error e => .error e
      | .ok ps => .ok (p :: ps)

/-- Model of `AdvancedRAGRetriever.build_context_string`: the sentinel on
an empty input, else the `"\n"`-join of the parts built over
`enumerate(chunks, 1)`. -/
def build_context_string (docs : List Document) : Except PyError String :=
  match docs with
  | [] => .ok "No relevant context found."
  | _ =>
    match buildParts 1 docs with
    | .error e => .error e
    | .ok parts => .ok (joinParts parts)

/-! ### generate_final_answer, document expansion, and the entry point -/

/-- Model of `AdvancedRAGRetriever.generate_final_answer` in the blocking
(`stream=False`) path: the environment-supplied `llm.invoke(...).content`
result, with every raise caught and turned into the apology string. -/
def generate_final_answer (invoke_result : Except PyError String) : String :=
  match invoke_result with
  | .ok a => a
  | .error e =>
    "I apologize, but I encountered an error while generating the final answer: "
      ++ e.text

/-- Model of `db.get_documents_by_ids`, parametric in the effectful
`db.documents.find`: a raise inside the `try` yields the empty list. -/
def get_documents_by_ids (find : List String → Except PyError (List Document))
    (document_ids : List String) : List Document :=
  match find document_ids with
  | .ok docs => docs
  | .error _ => []

/-- The `doc_ids` computation of `get_full_docs`:
`list(set(chunk.get("document_id", "") for chunk in chunks))`.  A Python
set iterates in unspecified order; the model removes duplicates with
`List.dedup`, and only order-free facts (membership, no duplicates) are
asserted about it. -/
def docIdsOf (chunks : List Chunk) : List String :=
  (chunks.map (fun c => c.document_id)).dedup

/-- Model of `AdvancedRAGRetriever.get_full_docs`: one batch lookup on the
distinct document ids. -/
def get_full_docs (find : List String → Except PyError (List Document))
    (chunks : List Chunk) : List Document :=
  get_documents_by_ids find (docIdsOf chunks)

/-- Iteration of the value bound to `subqueries` by the `for` loop of
`retrieve_for_subqueries`: a list yields its entries (rendered to strings;
non-string entries only reach the environment-abstract retrieval call), a
string yields its characters, a dict its keys, and the remaining shapes
raise `TypeError` (they are not reachable from `generate_subqueries`
outputs). -/
def pyIterStrings : PyVal → Except PyError (List String)
  | .str s => .ok (s.data.map (fun ch => String.mk [ch]))
  | .list xs => .ok (xs.map pyToStr)
  | .dict kvs => .ok (kvs.map (fun kv => kv.1))
  | _ => .error (.typeError "object is not iterable")

/-- The field names of the `QueryResult` dataclass, in declaration order;
all four are required (no defaults). -/
def queryResultFields : List String :=
  ["original_query", "subqueries", "context", "final_answer"]

/-- Model of CPython keyword validation for a dataclass call: the first
keyword that is not a field raises `TypeError`, then any field not
supplied raises `TypeError`. -/
def dataclassKwargCheck (fields kwargs : List String) : Except PyError Unit :=
  match kwargs.find? (fun k => decide (k ∉ fields)) with
  | some k => .error (.typeError ("unexpected keyword argument " ++ k))
  | Option.none =>
    match fields.find? (fun f => decide (f ∉ kwargs)) with
    | some f => .error (.typeError ("missing required argument " ++ f))
    | Option.none => .ok ()

/-- The keywords passed to `QueryResult(...)` in the `except` branch of
`retrieve_and_answer`: `chunks`, `unique_chunks` and `metadata` are not
fields of the dataclass, and `context` is not supplied. -/
def errorHandlerKwargs : List String :=
  ["original_query", "subqueries", "chunks", "unique_chunks", "final_answer",
   "metadata"]

/-- The `except` branch of `retrieve_and_answer`.  The `ok` arm shows the
result the source intends to construct; it is unreachable because the
keyword check rejects `chunks` (and `context` is missing besides). -/
def errorQueryResult (query : String) (e : PyError) : Except PyError QueryResult :=
  match dataclassKwargCheck queryResultFields errorHandlerKwargs with
  | .ok _ => .ok
    { original_query := query
      subqueries := PyVal.list []
      context := ""
      final_answer :=
        "I apologize, but I encountered an error while processing your query: "
          ++ e.text }
  | .error e2 => .error e2

/-- The effectful primitives and configuration the pipeline runs against:
the composite `llm.invoke(prompt).content` + `json.loads` for subquery
generation (keyed by the original query), `retrieve_relevant_chunks`,
`db.documents.find`, the final-answer `llm.invoke(...).content` (keyed by
query and context), and the configured `max_context_length`. -/
structure Env where
  invoke_parse : String → Except PyError PyVal
  retrieve : String → Except PyError (List Chunk)
  find_docs : List String → Except PyError (List Document)
  answer : String → String → Except PyError String
  max_context_length : Nat := 128000

/-- The `try` body of `retrieve_and_answer` (blocking path): the chain of
subquery generation, retrieval, deduplication, document expansion,
truncation, context formatting, answer generation, and the success-path
`QueryResult` construction (whose keywords are all valid fields). -/
def pipelineBody (env : Env) (query : String) : Except PyError QueryResult := do
  let subqueries := generate_subqueries query (env.invoke_parse query)
  let sq_list ← pyIterStrings subqueries
  let all_chunks := retrieve_for_subqueries env.retrieve sq_list
  let unique_chunks := deduplicate_chunks all_chunks
  let unique_docs := get_full_docs env.find_docs unique_chunks
  let final_chunks := truncate_context env.max_context_length unique_docs
  let context_string ← build_context_string final_chunks
  let final_answer := generate_final_answer (env.answer query context_string)
  pure
    { original_query := query
      subqueries := subqueries
      context := context_string
      final_answer := final_answer }

/-- Model of `AdvancedRAGRetriever.retrieve_and_answer` (blocking path):
the `try` body, with any escaping exception routed to the `except` branch. -/
def retrieve_and_answer (env : Env) (query : String) :
    Except PyError QueryResult :=
  match pipelineBody env query with
  | .ok r => .ok r
  | .error e => errorQueryResult query e

/-- Cumulative `len(content)` of a document sequence, the quantity the
truncation loop tracks as `total_length`. -/
def sumContentLen (docs : List Document) : Nat :=
  (docs.map (fun d => d.content.length)).sum

/-- A concrete environment on which the pipeline body raises: retrieval
finds a chunk of document `d1`, and the stored `d1` carries a `metadata`
value that is not a dict, so the metadata read in `build_context_string`
raises `AttributeError`. -/
def envBadMetadata : Env where
  invoke_parse := fun _ => Except.error (PyError.exception "llm down")
  retrieve := fun _ => Except.ok
    [⟨"k", "d1", "cc", "", PyVal.dict [], 1, Option.none, Option.none⟩]
  find_docs := fun _ => Except.ok
    [⟨"d1", "body", PyVal.str "bad", Option.none⟩]
  answer := fun _ _ => Except.ok "ans"

/-! ### Lemmas about the truncation loop -/

theorem sumContentLen_nil : sumContentLen [] = 0 := rfl

theorem sumContentLen_cons (d : Document) (l : List Document) :
    sumContentLen (d :: l) = d.content.length + sumContentLen l := by
  simp [sumContentLen]

theorem truncate_loop_spec (B : Nat) (docs : List Document) : ∀ (total : Nat),
    (truncate_context.loop B total docs <+: docs) ∧
    (total + sumContentLen (truncate_context.loop B total docs) ≤ B ∨
      truncate_context.loop B total docs = []) ∧
    (∀ d rest, docs = truncate_context.loop B total docs ++ d :: rest →
      B < total + sumContentLen (truncate_context.loop B total docs) +
        d.content.length) := by
  induction docs with
  | nil =>
    intro total
    refine ⟨⟨[], rfl⟩, Or.inr rfl, ?_⟩
    intro d rest h
    exact absurd h (by simp [truncate_context.loop])
  | cons d0 rest0 ih =>
    intro total
    by_cases hfit : total + d0.content.length ≤ B
    · have hloop : truncate_context.loop B total (d0 :: rest0) =
          d0 :: truncate_context.loop B (total + d0.content.length) rest0 := by
        simp [truncate_context.loop, hfit]
      obtain ⟨ih1, ih2, ih3⟩ := ih (total + d0.content.length)
      refine ⟨?_, ?_, ?_⟩
      · rw [hloop]
        obtain ⟨t, ht⟩ := ih1
        exact ⟨t, by rw [List.cons_append, ht]⟩
      · left
        rw [hloop, sumContentLen_cons]
        rcases ih2 with h2 | h2
        · omega
        · rw [h2, sumContentLen_nil]
          omega
      · intro d rest h
        rw [hloop] at h ⊢
        simp only [List.cons_append, List.cons.injEq] at h
        have h3 := ih3 d rest h.2
        rw [sumContentLen_cons]
        omega
    · have hloop : truncate_context.loop B total (d0 :: rest0) = [] := by
        simp [truncate_context.loop, hfit]
      refine ⟨?_, Or.inr hloop, ?_⟩
      · rw [hloop]
        exact ⟨d0 :: rest0, rfl⟩
      · intro d rest h
        rw [hloop] at h ⊢
        simp only [List.nil_append, List.cons.injEq] at h
        obtain ⟨hd, _⟩ := h
        subst hd
        rw [sumContentLen_nil]
        omega

/-- C4: for every document sequence and budget `B`, `truncate_context`
returns a prefix of the input whose cumulative content length is at most
`B`, and if a document is excluded, the first excluded document would push
the cumulative total past `B`. -/
theorem truncate_context_budget (B : Nat) (docs : List Document) :
    truncate_context B docs <+: docs ∧
    sumContentLen (truncate_context B docs) ≤ B ∧
    ∀ d rest, docs = truncate_context B docs ++ d :: rest →
      B < sumContentLen (truncate_context B docs) + d.content.length := by
  have hdef : truncate_context B docs = truncate_context.loop B 0 docs := rfl
  obtain ⟨h1, h2, h3⟩ := truncate_loop_spec B docs 0
  rw [hdef]
  refine ⟨h1, ?_, ?_⟩
  · rcases h2 with h2 | h2
    · omega
    · rw [h2, sumContentLen_nil]
      omega
  · intro d rest h
    have := h3 d rest h
    omega

/-- Witness for C4: with budget 3, the input `[len 2, len 2]` is cut after
its first document, and adding the excluded document would exceed the
budget. -/
theorem truncate_context_budget_witness :
    truncate_context 3 [⟨"a", "ab", PyVal.dict [], Option.none⟩,
        ⟨"b", "cd", PyVal.dict [], Option.none⟩] =
      [⟨"a", "ab", PyVal.dict [], Option.none⟩] ∧
    3 < sumContentLen (truncate_context 3
        [⟨"a", "ab", PyVal.dict [], Option.none⟩,
         ⟨"b", "cd", PyVal.dict [], Option.none⟩]) +
      ("cd" : String).length :=
  ⟨rfl, (truncate_context_budget 3 [⟨"a", "ab", PyVal.dict [], Option.none⟩,
      ⟨"b", "cd", PyVal.dict [], Option.none⟩]).2.2
    ⟨"b", "cd", PyVal.dict [], Option.none⟩ [] rfl⟩

/-! ### Lemmas about the context formatter -/

theorem contextPart_head (i : Nat) (d : Document) (s : String)
    (h : contextPart i d = .ok s) : s.data.head? = some '\n' := by
  have hlit : ("\n<context_chunk id=\"" : String).data =
      '\n' :: ("<context_chunk id=\"" : String).data := rfl
  rcases h1 : pyDictGet d.metadata "url" (PyVal.str "Unknown Source") with e | u
  · simp [contextPart, h1] at h
  · rcases h2 : pyDictGet d.metadata "title" (PyVal.str "Unknown Title") with e | t
    · simp [contextPart, h1, h2] at h
    · simp only [contextPart, h1, h2, Except.ok.injEq] at h
      subst h
      simp only [String.data_append, hlit, List.cons_append, List.head?_cons]

theorem joinParts_data (p : String) (rest : List String) :
    ∃ t, (joinParts (p :: rest)).data = p.data ++ t := by
  cases rest with
  | nil => exact ⟨[], by simp [joinParts]⟩
  | cons q r =>
    refine ⟨("\n" ++ joinParts (q :: r)).data, ?_⟩
    simp [joinParts, String.data_append]

/-- C9: `build_context_string` returns the sentinel exactly on the empty
input: the empty sequence yields the sentinel, and a non-empty sequence
never does. -/
theorem build_context_string_sentinel :
    build_context_string ([] : List Document) =
      Except.ok "No relevant context found." ∧
    ∀ (docs : List Document) (s : String), docs ≠ [] →
      build_context_string docs = Except.ok s →
      s ≠ "No relevant context found." := by
  refine ⟨rfl, ?_⟩
  intro docs s hne h hs
  match docs, hne with
  | d :: ds, _ =>
    rcases h1 : contextPart 1 d with e | p
    · simp [build_context_string, buildParts, h1] at h
    · rcases h2 : buildParts 2 ds with e | ps
      · simp [build_context_string, buildParts, h1, h2] at h
      · have hs' : s = joinParts (p :: ps) := by
          simp only [build_context_string, buildParts, h1, h2,
            Except.ok.injEq] at h
          exact h.symm
        obtain ⟨t, ht⟩ := joinParts_data p ps
        have hp := contextPart_head 1 d p h1
        have hdata : ("No relevant context found." : String).data =
            p.data ++ t := by
          rw [← hs, hs', ht]
        rcases hq : p.data with _ | ⟨c, l⟩
        · rw [hq] at hp
          simp at hp
        · rw [hq] at hp hdata
          simp only [List.head?_cons, Option.some.injEq] at hp
          subst hp
          have hN : ("No relevant context found." : String).data.head? =
              some '\n' := by
            rw [hdata]
            rfl
          simp at hN

/-- Witness for C9: a concrete one-document input formats to a string that
is not the sentinel. -/
theorem build_context_string_sentinel_witness :
    build_context_string [⟨"d", "c", PyVal.dict [], Option.none⟩] =
      Except.ok ("\n<context_chunk id=\"1\" score=\"0.000\" source_url=\"Unknown Source\" title=\"Unknown Title\">\nc\n</context_chunk>") ∧
    ("\n<context_chunk id=\"1\" score=\"0.000\" source_url=\"Unknown Source\" title=\"Unknown Title\">\nc\n</context_chunk>" : String) ≠
      "No relevant context found." :=
  ⟨by rfl, build_context_string_sentinel.2
    [⟨"d", "c", PyVal.dict [], Option.none⟩] _ (by simp) (by rfl)⟩

/-! ### Lemmas about subquery generation -/

theorem padLoop_eq (orig : String) : ∀ (n : Nat) (xs : List PyVal),
    3 - xs.length ≤ n →
    padLoop orig n xs = xs ++ (List.range (3 - xs.length)).map
      (fun k => PyVal.str (orig ++ " - variation " ++
        toString (xs.length + k + 1))) := by
  intro n
  induction n with
  | zero =>
    intro xs h
    have h0 : 3 - xs.length = 0 := by omega
    rw [h0]
    simp [padLoop]
  | succ n ih =>
    intro xs h
    by_cases hlen : xs.length < 3
    · have hstep : padLoop orig (n + 1) xs = padLoop orig n
          (xs ++ [PyVal.str (orig ++ " - variation " ++
            toString (xs.length + 1))]) := by
        simp [padLoop, hlen]
      have hlen2 : (xs ++ [PyVal.str (orig ++ " - variation " ++
          toString (xs.length + 1))]).length = xs.length + 1 := by
        simp
      rw [hstep, ih _ (by rw [hlen2]; omega), hlen2]
      have h3 : 3 - xs.length = (3 - (xs.length + 1)) + 1 := by omega
      conv_rhs => rw [h3, List.range_succ_eq_map]
      simp only [List.map_cons, List.map_map, Nat.add_zero]
      conv_rhs => rw [List.append_cons]
      congr 1
      apply List.map_congr_left
      intro k _
      simp only [Function.comp_apply]
      have harg : xs.length + Nat.succ k + 1 = xs.length + 1 + k + 1 := by omega
      rw [harg]
    · have h0 : 3 - xs.length = 0 := by omega
      rw [h0]
      simp [padLoop, hlen]

/-- C6: when the completion parses to a list with fewer than 3 entries,
`generate_subqueries` returns the parsed entries followed by padding
entries `"<original_query> - variation <n>"`, `n` being the 1-based
position of the padded entry, for a total of exactly 3; and on every
successful parse the result has length at least 1. -/
theorem generate_subqueries_pads (orig : String) :
    (∀ xs : List PyVal, xs.length < 3 →
      generate_subqueries orig (Except.ok (PyVal.list xs)) =
        PyVal.list (xs ++ (List.range (3 - xs.length)).map
          (fun k => PyVal.str (orig ++ " - variation " ++
            toString (xs.length + k + 1)))) ∧
      (xs ++ (List.range (3 - xs.length)).map
        (fun k => PyVal.str (orig ++ " - variation " ++
          toString (xs.length + k + 1)))).length = 3) ∧
    (∀ v : PyVal, ∃ n,
      pyLen (generate_subqueries orig (Except.ok v)) = Except.ok n ∧ 1 ≤ n) := by
  constructor
  · intro xs hlen
    have hpad := padLoop_eq orig 3 xs (by omega)
    constructor
    · simp [generate_subqueries, generateSubqueriesBody, pyLen, hlen,
        padSubqueries, hpad]
    · simp only [List.length_append, List.length_map, List.length_range]
      omega
  · intro v
    cases v with
    | none => exact ⟨1, rfl, by omega⟩
    | bool b => exact ⟨1, rfl, by omega⟩
    | num q => exact ⟨1, rfl, by omega⟩
    | str s =>
      by_cases hlen : s.length < 3
      · refine ⟨1, ?_, by omega⟩
        simp [generate_subqueries, generateSubqueriesBody, pyLen, hlen]
      · refine ⟨s.length, ?_, by omega⟩
        simp [generate_subqueries, generateSubqueriesBody, pyLen, hlen]
    | dict kvs =>
      by_cases hlen : kvs.length < 3
      · refine ⟨1, ?_, by omega⟩
        simp [generate_subqueries, generateSubqueriesBody, pyLen, hlen]
      · refine ⟨kvs.length, ?_, by omega⟩
        simp [generate_subqueries, generateSubqueriesBody, pyLen, hlen]
    | list xs =>
      by_cases hlen : xs.length < 3
      · refine ⟨3, ?_, by omega⟩
        have hpad := padLoop_eq orig 3 xs (by omega)
        simp [generate_subqueries, generateSubqueriesBody, pyLen, hlen,
          padSubqueries, hpad]
        omega
      · refine ⟨xs.length, ?_, by omega⟩
        simp [generate_subqueries, generateSubqueriesBody, pyLen, hlen]

/-- Witness for C6: a one-entry parse is padded to exactly the 3 entries
`["a", "q - variation 2", "q - variation 3"]`, and a concrete successful
parse yields a result of positive length. -/
theorem generate_subqueries_pads_witness :
    generate_subqueries "q" (Except.ok (PyVal.list [PyVal.str "a"])) =
      PyVal.list [PyVal.str "a", PyVal.str "q - variation 2",
        PyVal.str "q - variation 3"] ∧
    ∃ n, pyLen (generate_subqueries "q" (Except.ok PyVal.none)) =
      Except.ok n ∧ 1 ≤ n :=
  ⟨by rw [((generate_subqueries_pads "q").1 [PyVal.str "a"] (by decide)).1]; rfl,
   (generate_subqueries_pads "q").2 PyVal.none⟩

/-- C5 counterexample: the completion `"abc"` (a JSON string, hence not
parseable as a list) makes `generate_subqueries` return the string itself,
not the one-element fallback list `[original_query]`. -/
theorem generate_subqueries_nonlist_passthrough :
    generate_subqueries "q" (Except.ok (PyVal.str "abc")) = PyVal.str "abc" ∧
    generate_subqueries "q" (Except.ok (PyVal.str "abc")) ≠
      PyVal.list [PyVal.str "q"] := by
  refine ⟨rfl, ?_⟩
  intro h
  exact PyVal.noConfusion
    (show PyVal.str "abc" = PyVal.list [PyVal.str "q"] from h)

/-- C5 (amended): the fallback `[original_query]` is returned exactly when
an exception escapes the `try` block: when the call or the parse raised,
when the parsed value has no `len()`, or when it has length below 3 and is
not a list (no `append`).  A non-list of length at least 3 is returned
as-is instead. -/
theorem generate_subqueries_fallback :
    (∀ (orig : String) (e : PyError),
      generate_subqueries orig (Except.error e) =
        PyVal.list [PyVal.str orig]) ∧
    (∀ (orig : String) (v : PyVal) (e : PyError), pyLen v = Except.error e →
      generate_subqueries orig (Except.ok v) = PyVal.list [PyVal.str orig]) ∧
    (∀ (orig : String) (v : PyVal) (n : Nat), pyLen v = Except.ok n → n < 3 →
      (∀ xs, v ≠ PyVal.list xs) →
      generate_subqueries orig (Except.ok v) = PyVal.list [PyVal.str orig]) := by
  refine ⟨fun orig e => rfl, ?_, ?_⟩
  · intro orig v e h
    simp [generate_subqueries, generateSubqueriesBody, h]
  · intro orig v n h hn hnl
    cases v with
    | none => rfl
    | bool b => rfl
    | num q => rfl
    | str s =>
      simp only [pyLen, Except.ok.injEq] at h
      subst h
      simp [generate_subqueries, generateSubqueriesBody, pyLen, hn]
    | dict kvs =>
      simp only [pyLen, Except.ok.injEq] at h
      subst h
      simp [generate_subqueries, generateSubqueriesBody, pyLen, hn]
    | list xs => exact absurd rfl (hnl xs)

/-- Witness for C5: a parsed value with no `len()` (a JSON number) yields
exactly the fallback `[original_query]`. -/
theorem generate_subqueries_fallback_witness :
    pyLen (PyVal.num 0) =
      Except.error (PyError.typeError "object has no len") ∧
    generate_subqueries "q" (Except.ok (PyVal.num 0)) =
      PyVal.list [PyVal.str "q"] :=
  ⟨rfl, generate_subqueries_fallback.2.1 "q" (PyVal.num 0)
    (PyError.typeError "object has no len") rfl⟩

/-! ### Lemmas about retrieval over subqueries -/

theorem retrieveLoop_eq (retrieve : String → Except PyError (List Chunk)) :
    ∀ (sqs : List String) (i : Nat) (acc : List Chunk),
    retrieveLoop retrieve i sqs acc =
      acc ++ (List.enumFrom i sqs).flatMap
        (fun p => match retrieve p.2 with
          | .ok cs => cs.map (tagChunk p.2 p.1)
          | .error _ => []) := by
  intro sqs
  induction sqs with
  | nil =>
    intro i acc
    simp [retrieveLoop]
  | cons sq rest ih =>
    intro i acc
    rcases hr : retrieve sq with e | cs
    · simp [retrieveLoop, hr, ih, List.enumFrom_cons, List.flatMap_cons]
    · simp [retrieveLoop, hr, ih, List.enumFrom_cons, List.flatMap_cons,
        List.append_assoc]

/-- C7: `retrieve_for_subqueries` equals, block by block, the
concatenation over `enumerate(subqueries, 1)` in which a failing subquery
contributes the empty block and a succeeding one its tagged chunks (so a
failure skips only its own subquery); and every returned chunk carries its
source subquery text and 1-based position. -/
theorem retrieve_for_subqueries_spec
    (retrieve : String → Except PyError (List Chunk))
    (subqueries : List String) :
    retrieve_for_subqueries retrieve subqueries =
      (List.enumFrom 1 subqueries).flatMap
        (fun p => match retrieve p.2 with
          | .ok cs => cs.map (tagChunk p.2 p.1)
          | .error _ => []) ∧
    ∀ c ∈ retrieve_for_subqueries retrieve subqueries,
      ∃ i sq cs c0, subqueries.get? (i - 1) = some sq ∧ 1 ≤ i ∧
        retrieve sq = .ok cs ∧ c0 ∈ cs ∧ c = tagChunk sq i c0 ∧
        c.source_subquery = some sq ∧ c.subquery_index = some i := by
  have heq := retrieveLoop_eq retrieve subqueries 1 []
  refine ⟨by simpa [retrieve_for_subqueries] using heq, ?_⟩
  intro c hc
  rw [show retrieve_for_subqueries retrieve subqueries =
      retrieveLoop retrieve 1 subqueries [] from rfl, heq] at hc
  simp only [List.nil_append, List.mem_flatMap] at hc
  obtain ⟨⟨i, sq⟩, hmem, hin⟩ := hc
  obtain ⟨h1, h2, h3⟩ := List.mem_enumFrom hmem
  rcases hr : retrieve sq with e | cs
  · rw [hr] at hin
    simp at hin
  · rw [hr] at hin
    simp only [List.mem_map] at hin
    obtain ⟨c0, hc0, hceq⟩ := hin
    refine ⟨i, sq, cs, c0, ?_, h1, hr, hc0, hceq.symm, ?_, ?_⟩
    · exact List.get?_eq_some.mpr ⟨by omega, h3.symm⟩
    · rw [← hceq]
      rfl
    · rw [← hceq]
      rfl

/-- Witness for C7: with subqueries `["a", "b", "c"]` where retrieval for
`"b"` raises, the first returned chunk is tagged with subquery `"a"` and
index 1, and the failing subquery did not abort the others. -/
theorem retrieve_for_subqueries_spec_witness :
    ∃ i sq cs c0,
      (["a", "b", "c"] : List String).get? (i - 1) = some sq ∧ 1 ≤ i ∧
      (fun q => if q = "b" then Except.error (PyError.exception "fail")
        else Except.ok
          [⟨"k", "d", "c", "", PyVal.dict [], 0, Option.none, Option.none⟩]) sq =
        .ok cs ∧ c0 ∈ cs ∧
      tagChunk "a" 1 ⟨"k", "d", "c", "", PyVal.dict [], 0, Option.none,
        Option.none⟩ = tagChunk sq i c0 ∧
      (tagChunk "a" 1 ⟨"k", "d", "c", "", PyVal.dict [], 0, Option.none,
        Option.none⟩).source_subquery = some sq ∧
      (tagChunk "a" 1 ⟨"k", "d", "c", "", PyVal.dict [], 0, Option.none,
        Option.none⟩).subquery_index = some i :=
  (retrieve_for_subqueries_spec
    (fun q => if q = "b" then Except.error (PyError.exception "fail")
      else Except.ok
        [⟨"k", "d", "c", "", PyVal.dict [], 0, Option.none, Option.none⟩])
    ["a", "b", "c"]).2
    (tagChunk "a" 1 ⟨"k", "d", "c", "", PyVal.dict [], 0, Option.none,
      Option.none⟩)
    (List.mem_cons_self _ _)

/-! ### Lemmas about document expansion -/

/-- C8: if the batch `find` raises, `get_full_docs` returns the empty
sequence; and the looked-up ids are exactly the distinct `document_id`
values of the input chunks, without duplicates. -/
theorem get_full_docs_spec :
    (∀ (find : List String → Except PyError (List Document))
      (chunks : List Chunk) (e : PyError),
      find (docIdsOf chunks) = Except.error e →
      get_full_docs find chunks = []) ∧
    (∀ chunks : List Chunk, (docIdsOf chunks).Nodup ∧
      ∀ x, x ∈ docIdsOf chunks ↔ ∃ c ∈ chunks, c.document_id = x) := by
  constructor
  · intro find chunks e h
    simp [get_full_docs, get_documents_by_ids, h]
  · intro chunks
    refine ⟨List.nodup_dedup _, ?_⟩
    intro x
    simp [docIdsOf, List.mem_dedup, List.mem_map]

/-- Witness for C8: a concrete raising batch lookup makes the expander
return the empty sequence. -/
theorem get_full_docs_spec_witness :
    get_full_docs (fun _ => Except.error (PyError.exception "db down"))
      [⟨"c1", "d1", "x", "", PyVal.dict [], 0, Option.none, Option.none⟩] =
      [] :=
  get_full_docs_spec.1 (fun _ => Except.error (PyError.exception "db down"))
    [⟨"c1", "d1", "x", "", PyVal.dict [], 0, Option.none, Option.none⟩]
    (PyError.exception "db down") rfl

/-! ### Lemmas about deduplication and the stable sort -/

theorem insertByScore_perm (c : Chunk) :
    ∀ l, (insertByScore c l).Perm (c :: l) := by
  intro l
  induction l with
  | nil => simp [insertByScore]
  | cons d ds ih =>
    by_cases h : d.score ≤ c.score
    · simp [insertByScore, h]
    · simp only [insertByScore, if_neg h]
      exact (ih.cons d).trans (List.Perm.swap c d ds)

theorem sortByScoreDesc_perm : ∀ l, (sortByScoreDesc l).Perm l := by
  intro l
  induction l with
  | nil => simp [sortByScoreDesc]
  | cons c cs ih =>
    exact (insertByScore_perm c (sortByScoreDesc cs)).trans (ih.cons c)

theorem insertByScore_sorted (c : Chunk) : ∀ l,
    List.Pairwise (fun a b => b.score ≤ a.score) l →
    List.Pairwise (fun a b => b.score ≤ a.score) (insertByScore c l) := by
  intro l
  induction l with
  | nil =>
    intro _
    simp [insertByScore]
  | cons d ds ih =>
    intro hp
    obtain ⟨hd, hds⟩ := List.pairwise_cons.1 hp
    by_cases h : d.score ≤ c.score
    · simp only [insertByScore, if_pos h]
      refine List.pairwise_cons.2 ⟨?_, hp⟩
      intro x hx
      rcases List.mem_cons.1 hx with rfl | hx
      · exact h
      · exact (hd x hx).trans h
    · simp only [insertByScore, if_neg h]
      refine List.pairwise_cons.2 ⟨?_, ih hds⟩
      intro x hx
      rcases List.mem_cons.1 ((insertByScore_perm c ds).mem_iff.1 hx)
          with rfl | hx
      · exact le_of_lt (lt_of_not_le h)
      · exact hd x hx

theorem sortByScoreDesc_sorted : ∀ l,
    List.Pairwise (fun a b => b.score ≤ a.score) (sortByScoreDesc l) := by
  intro l
  induction l with
  | nil => simp [sortByScoreDesc]
  | cons c cs ih => exact insertByScore_sorted c (sortByScoreDesc cs) ih

theorem insertByScore_filter (s : Rat) (c : Chunk) : ∀ l,
    (insertByScore c l).filter (fun x => decide (x.score = s)) =
      ((c :: l).filter (fun x => decide (x.score = s))) := by
  intro l
  induction l with
  | nil => rfl
  | cons d ds ih =>
    by_cases h : d.score ≤ c.score
    · simp [insertByScore, h]
    · simp only [insertByScore, if_neg h]
      by_cases hc : c.score = s
      · have hd : ¬ (d.score = s) := by
          intro hds
          exact h (by rw [hds, ← hc])
        simp [List.filter_cons, hc, hd, ih]
      · by_cases hd : d.score = s
        · simp [List.filter_cons, hc, hd, ih]
        · simp [List.filter_cons, hc, hd, ih]

theorem sortByScoreDesc_filter (s : Rat) : ∀ l,
    (sortByScoreDesc l).filter (fun x => decide (x.score = s)) =
      l.filter (fun x => decide (x.score = s)) := by
  intro l
  induction l with
  | nil => rfl
  | cons c cs ih =>
    have h1 := insertByScore_filter s c (sortByScoreDesc cs)
    simp only [sortByScoreDesc, h1, List.filter_cons, ih]

theorem dedupLoop_sublist : ∀ (l : List Chunk) (ids : List String)
    (hs : List Nat), (dedupLoop l ids hs).Sublist l := by
  intro l
  induction l with
  | nil =>
    intro ids hs
    simp [dedupLoop]
  | cons c rest ih =>
    intro ids hs
    by_cases h1 : c.chunk_id ≠ "" ∧ c.chunk_id ∈ ids
    · simp only [dedupLoop, if_pos h1]
      exact (ih ids hs).cons c
    · by_cases h2 : md5 c.content ∈ hs
      · simp only [dedupLoop, if_neg h1, if_pos h2]
        exact (ih ids hs).cons c
      · simp only [dedupLoop, if_neg h1, if_neg h2]
        exact (ih _ _).cons₂ c

theorem dedupLoop_invariant : ∀ (l : List Chunk) (ids : List String)
    (hs : List Nat),
    (∀ c ∈ dedupLoop l ids hs,
      md5 c.content ∉ hs ∧ (c.chunk_id ≠ "" → c.chunk_id ∉ ids)) ∧
    List.Pairwise (fun a b => md5 a.content ≠ md5 b.content ∧
      (a.chunk_id = b.chunk_id → a.chunk_id = "")) (dedupLoop l ids hs) := by
  intro l
  induction l with
  | nil =>
    intro ids hs
    simp [dedupLoop]
  | cons c rest ih =>
    intro ids hs
    by_cases h1 : c.chunk_id ≠ "" ∧ c.chunk_id ∈ ids
    · simpa only [dedupLoop, if_pos h1] using ih ids hs
    · by_cases h2 : md5 c.content ∈ hs
      · simpa only [dedupLoop, if_neg h1, if_pos h2] using ih ids hs
      · have hloop : dedupLoop (c :: rest) ids hs =
            c :: dedupLoop rest
              (if c.chunk_id ≠ "" then c.chunk_id :: ids else ids)
              (md5 c.content :: hs) := by
          simp only [dedupLoop, if_neg h1, if_neg h2]
        obtain ⟨ihmem, ihpw⟩ :=
          ih (if c.chunk_id ≠ "" then c.chunk_id :: ids else ids)
            (md5 c.content :: hs)
        rw [hloop]
        constructor
        · intro x hx
          rcases List.mem_cons.1 hx with rfl | hx
          · exact ⟨h2, fun hne hin => h1 ⟨hne, hin⟩⟩
          · obtain ⟨hm, hi⟩ := ihmem x hx
            refine ⟨fun hin => hm (List.mem_cons_of_mem _ hin), ?_⟩
            intro hne hin
            apply hi hne
            by_cases hcid : c.chunk_id ≠ ""
            · rw [if_pos hcid]
              exact List.mem_cons_of_mem _ hin
            · rw [if_neg hcid]
              exact hin
        · refine List.pairwise_cons.2 ⟨?_, ihpw⟩
          intro x hx
          obtain ⟨hm, hi⟩ := ihmem x hx
          constructor
          · intro he
            exact hm (by rw [← he]; exact List.mem_cons_self _ _)
          · intro he
            by_contra hne
            have hxne : x.chunk_id ≠ "" := by
              rw [← he]
              exact hne
            apply hi hxne
            rw [if_pos hne, ← he]
            exact List.mem_cons_self _ _

/-- C2 (amended): in the output of `deduplicate_chunks`, content hashes
are pairwise distinct, and two output chunks can share a `chunk_id` only
when that id is the empty string (the id-based check is skipped for empty
ids). -/
theorem deduplicate_chunks_unique (chunks : List Chunk) :
    List.Pairwise (fun a b => md5 a.content ≠ md5 b.content ∧
      (a.chunk_id = b.chunk_id → a.chunk_id = ""))
      (deduplicate_chunks chunks) := by
  have hsym : ∀ {x y : Chunk},
      (md5 x.content ≠ md5 y.content ∧
        (x.chunk_id = y.chunk_id → x.chunk_id = "")) →
      (md5 y.content ≠ md5 x.content ∧
        (y.chunk_id = x.chunk_id → y.chunk_id = "")) := by
    intro x y hxy
    obtain ⟨hh, hid⟩ := hxy
    refine ⟨Ne.symm hh, ?_⟩
    intro he
    rw [he]
    exact hid he.symm
  have hperm := sortByScoreDesc_perm (dedupLoop chunks [] [])
  have hpw := (dedupLoop_invariant chunks [] []).2
  exact (hperm.pairwise_iff hsym).2 hpw

/-- Witness for C2: the uniqueness property evaluated on a concrete
one-chunk input. -/
theorem deduplicate_chunks_unique_witness :
    List.Pairwise (fun a b => md5 a.content ≠ md5 b.content ∧
      (a.chunk_id = b.chunk_id → a.chunk_id = ""))
      (deduplicate_chunks
        [⟨"c1", "d1", "x", "", PyVal.dict [], 0, Option.none, Option.none⟩]) :=
  deduplicate_chunks_unique
    [⟨"c1", "d1", "x", "", PyVal.dict [], 0, Option.none, Option.none⟩]

set_option maxRecDepth 100000 in
/-- C2 counterexample: two chunks with empty `chunk_id` and distinct
contents both survive deduplication, so output chunk ids are not pairwise
distinct. -/
theorem deduplicate_chunks_shared_empty_id :
    ¬ List.Pairwise (fun a b => a.chunk_id ≠ b.chunk_id)
      (deduplicate_chunks
        [⟨"", "", "a", "", PyVal.dict [], 0, Option.none, Option.none⟩,
         ⟨"", "", "b", "", PyVal.dict [], 0, Option.none, Option.none⟩]) := by
  intro h
  have heq : deduplicate_chunks
      [⟨"", "", "a", "", PyVal.dict [], 0, Option.none, Option.none⟩,
       ⟨"", "", "b", "", PyVal.dict [], 0, Option.none, Option.none⟩] =
      [⟨"", "", "a", "", PyVal.dict [], 0, Option.none, Option.none⟩,
       ⟨"", "", "b", "", PyVal.dict [], 0, Option.none, Option.none⟩] := by
    rfl
  rw [heq] at h
  obtain ⟨hd, _⟩ := List.pairwise_cons.1 h
  exact hd _ (List.mem_cons_self _ _) rfl

/-- C3: the output of `deduplicate_chunks` is sorted by score
non-increasing; chunks of equal score appear in the same order as in the
pre-sort survivor list, which is itself a sublist of the input (so ties
keep the relative order of their first occurrences in the input). -/
theorem deduplicate_chunks_sorted_stable (chunks : List Chunk) :
    List.Pairwise (fun a b => b.score ≤ a.score)
      (deduplicate_chunks chunks) ∧
    (∀ s : Rat,
      (deduplicate_chunks chunks).filter (fun c => decide (c.score = s)) =
        (dedupLoop chunks [] []).filter (fun c => decide (c.score = s))) ∧
    (dedupLoop chunks [] []).Sublist chunks :=
  ⟨sortByScoreDesc_sorted _, fun s => sortByScoreDesc_filter s _,
    dedupLoop_sublist chunks [] []⟩

set_option maxRecDepth 100000 in
/-- C10: a chunk dropped because its non-empty `chunk_id` was already seen
leaves the loop state untouched — in particular its content hash is not
registered; concretely, after `A(id x, content ca)` drops
`B(id x, content cb)`, the later chunk `D(id y, content cb)` with the very
content of `B` still survives. -/
theorem dedup_dropped_id_not_registered :
    (∀ (c : Chunk) (rest : List Chunk) (ids : List String) (hs : List Nat),
      c.chunk_id ≠ "" → c.chunk_id ∈ ids →
      dedupLoop (c :: rest) ids hs = dedupLoop rest ids hs) ∧
    deduplicate_chunks
      [⟨"x", "", "ca", "", PyVal.dict [], 0, Option.none, Option.none⟩,
       ⟨"x", "", "cb", "", PyVal.dict [], 0, Option.none, Option.none⟩,
       ⟨"y", "", "cb", "", PyVal.dict [], 0, Option.none, Option.none⟩] =
      [⟨"x", "", "ca", "", PyVal.dict [], 0, Option.none, Option.none⟩,
       ⟨"y", "", "cb", "", PyVal.dict [], 0, Option.none, Option.none⟩] := by
  constructor
  · intro c rest ids hs h1 h2
    simp [dedupLoop, h1, h2]
  · rfl

/-- Witness for C10: the drop-by-id step evaluated at a concrete state. -/
theorem dedup_dropped_id_not_registered_witness :
    dedupLoop
      [⟨"x", "", "cb", "", PyVal.dict [], 0, Option.none, Option.none⟩]
      ["x"] [] = dedupLoop [] ["x"] [] :=
  dedup_dropped_id_not_registered.1
    ⟨"x", "", "cb", "", PyVal.dict [], 0, Option.none, Option.none⟩ [] ["x"]
    [] (by decide) (List.mem_cons_self _ _)

/-! ### The broken error handler of the entry point -/

/-- C1 (code bug): whenever an exception escapes the `try` body, the
`except` branch constructs `QueryResult` with keyword arguments the
dataclass does not define (and without the required `context`), so the
handler itself raises `TypeError` and `retrieve_and_answer` propagates a
raw exception instead of returning the terminal error result. -/
theorem retrieve_and_answer_error_propagates (env : Env) (query : String)
    (e : PyError) (h : pipelineBody env query = Except.error e) :
    retrieve_and_answer env query =
      Except.error (PyError.typeError "unexpected keyword argument chunks") := by
  simp only [retrieve_and_answer, h]
  rfl

set_option maxRecDepth 100000 in
/-- Witness for C1: on `envBadMetadata` the body raises `AttributeError`
inside `build_context_string`, and the whole entry point then raises
`TypeError` out of its own error handler. -/
theorem retrieve_and_answer_error_propagates_witness :
    pipelineBody envBadMetadata "q" =
      Except.error (PyError.attributeError "object has no attribute get") ∧
    retrieve_and_answer envBadMetadata "q" =
      Except.error (PyError.typeError "unexpected keyword argument chunks") :=
  ⟨rfl, retrieve_and_answer_error_propagates envBadMetadata "q"
    (PyError.attributeError "object has no attribute get") rfl⟩

end RAG
